import Mathlib

/-!
Verification of the test-data generation engine in problemtools
(src/problemtools/gendata.py) against its natural-language specification.

The Python code is shallowly embedded: each Python function that the
claims depend on is translated into an executable Lean definition over
explicit data (strings, association lists modelling insertion-ordered
dictionaries, event lists modelling filesystem side effects).  Machine
integers do not occur in the source except for the SHA-512 seed
computation, which is modelled exactly with natural numbers reduced
modulo 2 ^ 64 at each step.
-/

/-! ## Python string primitives

The source manipulates paths and file names with Python string slicing
and splitting.  These helpers reproduce the exact Python semantics used
by gendata.py. -/

/-- Python `s[:-n]`.  For `n = 0` Python evaluates `s[:-0]` as `s[:0] = ""`
(since `-0 == 0`); for `n ≥ 1` it drops the last `n` characters.  The
`n = 0` case matters: `_run_single` computes `fname[:-len(ext)]` and the
extension can be the empty string when a file name ends in a dot. -/
def pySliceToNeg (s : String) (n : Nat) : String :=
  if n = 0 then "" else String.mk (s.data.take (s.data.length - n))

/-- Python `s[:-n]` for the call sites where `n ≥ 1` is known
(e.g. `path[:-2]`, `path[:-3]` on paths ending in `.in`). -/
def pyDropRight (s : String) (n : Nat) : String :=
  String.mk (s.data.take (s.data.length - n))

/-- Split a character list at every occurrence of a separator character,
keeping empty pieces, exactly like Python `str.split(sep)` for a one
character separator. -/
def splitCharList (sep : Char) : List Char → List (List Char)
  | [] => [[]]
  | c :: cs =>
    match splitCharList sep cs with
    | [] => [[c]]
    | p :: ps => if c = sep then [] :: p :: ps else (c :: p) :: ps

/-- Python `s.split(sep)` for a one-character separator. -/
def pySplit (s : String) (sep : Char) : List String :=
  (splitCharList sep s.data).map String.mk

/-- Join with a one-character separator; inverse of `pySplit`. -/
def joinCharList (sep : Char) : List (List Char) → List Char
  | [] => []
  | [p] => p
  | p :: ps => p ++ sep :: joinCharList sep ps

/-- Python `c in s` membership of a character in a string. -/
def pyContains (s : String) (c : Char) : Bool := s.data.contains c

/-- Python `s.endswith(t)` (structurally recursive, unlike
`String.endsWith`, so closed instances reduce definitionally). -/
def pyEndsWith (s t : String) : Bool := t.data.isSuffixOf s.data

/-- Python `s.startswith(t)`. -/
def pyStartsWith (s t : String) : Bool := t.data.isPrefixOf s.data

/-- Python `s[n:]`. -/
def pyDrop (s : String) (n : Nat) : String := String.mk (s.data.drop n)

/-- Join a list of strings with a one-character separator
(Python `sep.join(xs)`). -/
def joinStrings (sep : Char) (xs : List String) : String :=
  String.mk (joinCharList sep (xs.map String.data))

/-- `os.path.basename`: the part after the last slash. -/
def basename (s : String) : String :=
  String.mk ((splitCharList '/' s.data).getLastD [])

/-- `os.path.dirname`: the part before the last slash. -/
def dirname (s : String) : String :=
  String.mk (joinCharList '/' (splitCharList '/' s.data).dropLast)

/-- `os.path.join(a, b)` for a relative second component, the only form
appearing in the walk (manifest keys never contain a slash). -/
def joinPath (a b : String) : String := a ++ "/" ++ b

/-- A minimal model of `shlex.split` adequate for the command strings the
manifest holds: tokens separated by runs of spaces, no quoting.  (The
claims about command interpolation are stated over arbitrary token lists,
so none of them depends on the details of this tokenizer.) -/
def shlexSplit (s : String) : List String :=
  ((splitCharList ' ' s.data).filter (· ≠ [])).map String.mk

/-- Character class `[a-zA-Z0-9]` of the key regular expression
(ASCII, as in Python `re`). -/
def isAlnumAscii (c : Char) : Bool :=
  (('a' ≤ c ∧ c ≤ 'z') ∨ ('A' ≤ c ∧ c ≤ 'Z') ∨ ('0' ≤ c ∧ c ≤ '9') : Prop)

/-- Character class `[a-zA-Z0-9_.-]` for interior key characters. -/
def isKeyMid (c : Char) : Bool :=
  isAlnumAscii c || c = '_' || c = '.' || c = '-'

/-- `GeneratorManifest.key_regex`:
`^[a-zA-Z0-9][a-zA-Z0-9_.-]*[a-zA-Z0-9]$` (note: it requires at least two
characters). -/
def keyRegexMatch (s : String) : Bool :=
  match s.data with
  | [] => false
  | [_] => false
  | c :: rest =>
    isAlnumAscii c && rest.dropLast.all isKeyMid &&
      (match rest.getLast? with
       | some d => isAlnumAscii d
       | none => false)

/-! ## SHA-512

`_hash_command` calls `hashlib.sha512` on the UTF-8 encoding of the
literal command text, parses the hexadecimal digest as an integer and
reduces it modulo `2 ^ 31`.  SHA-512 (FIPS 180-4) is implemented here in
full so that the seed definition is executable; 64-bit words are natural
numbers kept below `2 ^ 64`. -/

def add64 (a b : Nat) : Nat := (a + b) % 2 ^ 64

def rotr64 (n a : Nat) : Nat := (a >>> n ||| a <<< (64 - n)) % 2 ^ 64

def shr64 (n a : Nat) : Nat := a >>> n

def not64 (a : Nat) : Nat := a ^^^ (2 ^ 64 - 1)

def sha512Ch (e f g : Nat) : Nat := (e &&& f) ^^^ (not64 e &&& g)

def sha512Maj (a b c : Nat) : Nat := (a &&& b) ^^^ (a &&& c) ^^^ (b &&& c)

def bigSigma0 (x : Nat) : Nat := rotr64 28 x ^^^ rotr64 34 x ^^^ rotr64 39 x

def bigSigma1 (x : Nat) : Nat := rotr64 14 x ^^^ rotr64 18 x ^^^ rotr64 41 x

def smallSigma0 (x : Nat) : Nat := rotr64 1 x ^^^ rotr64 8 x ^^^ shr64 7 x

def smallSigma1 (x : Nat) : Nat := rotr64 19 x ^^^ rotr64 61 x ^^^ shr64 6 x

/-- The 80 SHA-512 round constants. -/
def sha512K : List Nat :=
  [4794697086780616226, 8158064640168781261, 13096744586834688815, 16840607885511220156, 4131703408338449720,
   6480981068601479193, 10538285296894168987, 12329834152419229976, 15566598209576043074, 1334009975649890238,
   2608012711638119052, 6128411473006802146, 8268148722764581231, 9286055187155687089, 11230858885718282805,
   13951009754708518548, 16472876342353939154, 17275323862435702243, 1135362057144423861, 2597628984639134821,
   3308224258029322869, 5365058923640841347, 6679025012923562964, 8573033837759648693, 10970295158949994411,
   12119686244451234320, 12683024718118986047, 13788192230050041572, 14330467153632333762, 15395433587784984357,
   489312712824947311, 1452737877330783856, 2861767655752347644, 3322285676063803686, 5560940570517711597,
   5996557281743188959, 7280758554555802590, 8532644243296465576, 9350256976987008742, 10552545826968843579,
   11727347734174303076, 12113106623233404929, 14000437183269869457, 14369950271660146224, 15101387698204529176,
   15463397548674623760, 17586052441742319658, 1182934255886127544, 1847814050463011016, 2177327727835720531,
   2830643537854262169, 3796741975233480872, 4115178125766777443, 5681478168544905931, 6601373596472566643,
   7507060721942968483, 8399075790359081724, 8693463985226723168, 9568029438360202098, 10144078919501101548,
   10430055236837252648, 11840083180663258601, 13761210420658862357, 14299343276471374635, 14566680578165727644,
   15097957966210449927, 16922976911328602910, 17689382322260857208, 500013540394364858, 748580250866718886,
   1242879168328830382, 1977374033974150939, 2944078676154940804, 3659926193048069267, 4368137639120453308,
   4836135668995329356, 5532061633213252278, 6448918945643986474, 6902733635092675308, 7801388544844847127]

/-- The SHA-512 working state: eight 64-bit words. -/
structure Sha512State where
  a : Nat
  b : Nat
  c : Nat
  d : Nat
  e : Nat
  f : Nat
  g : Nat
  h : Nat
deriving Repr, DecidableEq

/-- The SHA-512 initial hash value. -/
def sha512H0 : Sha512State :=
  ⟨7640891576956012808, 13503953896175478587, 4354685564936845355, 11912009170470909681,
   5840696475078001361, 11170449401992604703, 2270897969802886507, 6620516959819538809⟩

/-- Big-endian bytes of a value, fixed width. -/
def natToBytesBE : Nat → Nat → List Nat
  | 0, _ => []
  | n + 1, v => natToBytesBE n (v / 256) ++ [v % 256]

/-- SHA-512 message padding: append `0x80`, then zeros up to 112 mod 128
bytes, then the bit length as a 16-byte big-endian integer. -/
def sha512Pad (msg : List Nat) : List Nat :=
  let L := msg.length
  let k := (128 - (L + 17) % 128) % 128
  msg ++ [0x80] ++ List.replicate k 0 ++ natToBytesBE 16 (8 * L)

/-- Fold big-endian bytes into one natural number. -/
def bytesToNatBE (bs : List Nat) : Nat := bs.foldl (fun acc b => acc * 256 + b) 0

/-- Group a list into chunks of `n + 1` elements. -/
def chunksOf (n : Nat) : List α → List (List α)
  | [] => []
  | x :: xs => (x :: xs).take (n + 1) :: chunksOf n ((x :: xs).drop (n + 1))
termination_by l => l.length
decreasing_by simp; omega

/-- The 128-byte padded blocks of a message, each as sixteen 64-bit
big-endian words. -/
def sha512Blocks (msg : List Nat) : List (List Nat) :=
  (chunksOf 127 (sha512Pad msg)).map (fun block => (chunksOf 7 block).map bytesToNatBE)

/-- One step of the message-schedule recurrence, operating on the
reversed schedule (most recent word first). -/
def scheduleStep (r : List Nat) : List Nat :=
  add64 (add64 (smallSigma1 (r.getD 1 0)) (r.getD 6 0))
    (add64 (smallSigma0 (r.getD 14 0)) (r.getD 15 0)) :: r

/-- The 80-word message schedule of one block. -/
def sha512Schedule (block : List Nat) : List Nat :=
  ((List.range 64).foldl (fun r _ => scheduleStep r) block.reverse).reverse

/-- One SHA-512 round. -/
def sha512Round (st : Sha512State) (k w : Nat) : Sha512State :=
  let t1 := add64 (add64 (add64 st.h (bigSigma1 st.e)) (add64 (sha512Ch st.e st.f st.g) k)) w
  let t2 := add64 (bigSigma0 st.a) (sha512Maj st.a st.b st.c)
  ⟨add64 t1 t2, st.a, st.b, st.c, add64 st.d t1, st.e, st.f, st.g⟩

/-- Compress one block into the running state. -/
def sha512Compress (st : Sha512State) (block : List Nat) : Sha512State :=
  let ws := sha512Schedule block
  let r := (sha512K.zip ws).foldl (fun s kw => sha512Round s kw.1 kw.2) st
  ⟨add64 st.a r.a, add64 st.b r.b, add64 st.c r.c, add64 st.d r.d,
   add64 st.e r.e, add64 st.f r.f, add64 st.g r.g, add64 st.h r.h⟩

/-- SHA-512 of a byte sequence, as the eight final state words. -/
def sha512Words (msg : List Nat) : Sha512State :=
  (sha512Blocks msg).foldl sha512Compress sha512H0

/-- SHA-512 digest interpreted as a 512-bit integer: Python's
`int(hashlib.sha512(data).hexdigest(), 16)` equals the big-endian
concatenation of the eight state words. -/
def sha512Nat (msg : List Nat) : Nat :=
  let st := sha512Words msg
  [st.a, st.b, st.c, st.d, st.e, st.f, st.g, st.h].foldl
    (fun acc w => acc * 2 ^ 64 + w) 0

/-- UTF-8 encoding of a string as a byte list (`str.encode('utf-8')`). -/
def utf8Bytes (s : String) : List Nat :=
  s.toUTF8.toList.map (fun b => b.toNat)

/-- `GeneratorManifest._hash_command` (gendata.py lines 252-253), as the
numeric value of the produced decimal string: the SHA-512 digest of the
UTF-8 encoded literal command text, taken as an integer, reduced modulo
`2 ^ 31`. -/
def hashCommand (command : String) : Nat :=
  sha512Nat (utf8Bytes command) % 2 ^ 31

/-! ## Manifest data model

The YAML fragment gendata.py consumes: null, strings, lists of command
strings, and nested dictionaries.  Dictionaries are modelled as
insertion-ordered association lists (Python dicts preserve insertion
order; `dict` assignment updates a key in place, `del` removes it).
List values whose members are not strings are rejected by
`_validate_generator` before any claim-relevant code runs, so command
lists are represented directly as string lists. -/

inductive Yaml where
  | null
  | str (s : String)
  | strList (cs : List String)
  | dict (entries : List (String × Yaml))
deriving Repr

/-- `GeneratedKind` (gendata.py lines 96-99). -/
inductive GKind where
  | testcase
  | testgroup
  | testdataYaml
deriving Repr, DecidableEq

/-- The failure modes of the loader/walker.  `genErr` is the
`GeneratorError` raised by `ProblemAspect.error`; `duplicatePath` is the
particular `GeneratorError` raised by the duplicate pre-pass in
`GeneratorManifest.__enter__` (kept separate so statements can name it);
`pyKeyError` and `pyAttributeError` are uncaught Python exceptions that
escape the `GeneratorError` handler entirely. -/
inductive WalkErr where
  | genErr (msg : String)
  | duplicatePath (path : String)
  | pyKeyError
  | pyAttributeError
deriving Repr, DecidableEq

/-- Python dict assignment `d[k] = v` on an association list: update the
first binding of `k` in place, else append. -/
def setKey (l : List (String × Yaml)) (k : String) (v : Yaml) : List (String × Yaml) :=
  match l with
  | [] => [(k, v)]
  | (k2, v2) :: rest => if k2 = k then (k, v) :: rest else (k2, v2) :: setKey rest k v

/-- Python truthiness of the YAML values that can appear as an extension
spec (`if not gen` in `_merge_configs`). -/
def yamlFalsy : Yaml → Bool
  | .null => true
  | .str s => s.data.isEmpty
  | .strList cs => cs.isEmpty
  | .dict es => es.isEmpty

/-- One command of a generator spec: `shlex.split` must yield a
non-empty token list (gendata.py lines 175-177). -/
def validateCommand (c : String) : Except WalkErr Unit :=
  if (shlexSplit c).isEmpty then .error (.genErr "unexpected empty command") else .ok ()

/-- `GeneratorManifest._validate_generator` (lines 161-177). -/
def validateGenerator (gen : Yaml) (allowNone : Bool) : Except WalkErr Unit :=
  match gen, allowNone with
  | .null, true => .ok ()
  | g, _ =>
    match g with
    | .strList [] => .error (.genErr "unexpected empty generator list")
    | .strList cs => cs.forM validateCommand
    | .str s => validateCommand s
    | .null => .error (.genErr "unexpected type of command")
    | .dict _ => .error (.genErr "unexpected type of command")

/-- One entry of an `extensions` config mapping
(`_validate_config`, lines 184-195). -/
def validateExtensionEntry (ext : String) (gen : Yaml) : Except WalkErr Unit :=
  if ext = "in" then .error (.genErr "forbidden extension .in in extensions config")
  else
    match gen with
    | .null => .ok ()
    | .str "generated" => .ok ()
    | g => validateGenerator g false

/-- `GeneratorManifest._validate_config` (lines 179-197).  Unknown keys
only produce a warning.  A non-dictionary value under `extensions` makes
the Python code call `.items()` on it, an uncaught `AttributeError`. -/
def validateConfig (config : Yaml) : Except WalkErr Unit :=
  match config with
  | .dict entries =>
      entries.forM (fun kv =>
        if kv.1 = "extensions" then
          match kv.2 with
          | .dict exts => exts.forM (fun eg => validateExtensionEntry eg.1 eg.2)
          | _ => .error .pyAttributeError
        else .ok ())
  | _ => .error (.genErr "config is not a dictionary")

/-- One entry of `_merge_configs`' extensions loop (lines 203-207):
a falsy value deletes the inherited entry — `del config[key][ext]` is
attempted unconditionally and raises `KeyError` if the merged parent has
no such entry; any other value overrides it. -/
def mergeExtensionEntry (acc : List (String × Yaml)) (ext : String) (gen : Yaml) :
    Except WalkErr (List (String × Yaml)) :=
  if yamlFalsy gen then
    if acc.any (fun kv => kv.1 = ext) then .ok (acc.eraseP (fun kv => kv.1 = ext))
    else .error .pyKeyError
  else .ok (setKey acc ext gen)

/-- `GeneratorManifest._merge_configs` (lines 199-210), restricted to the
`extensions` mapping, the only configuration the engine consumes (other
keys are copied through unchanged and never read). -/
def mergeConfigs (parent : List (String × Yaml)) (scopeConfig : Yaml) :
    Except WalkErr (List (String × Yaml)) :=
  match scopeConfig with
  | .dict entries =>
      entries.foldlM (fun acc kv =>
        if kv.1 = "extensions" then
          match kv.2 with
          | .dict exts => exts.foldlM (fun a eg => mergeExtensionEntry a eg.1 eg.2) acc
          | _ => .error .pyAttributeError
        else .ok acc) parent
  | _ => .error .pyAttributeError

/-- `_validate_testdata_yaml` (lines 212-214). -/
def validateTestdataYaml (v : Yaml) : Except WalkErr Unit :=
  match v with
  | .dict _ => .ok ()
  | _ => .error (.genErr "expected a dictionary in testdata.yaml")

/-- One handler call recorded by the manifest walk: the classified kind,
the resolved filesystem path, the raw generator value and the scope's
merged extensions configuration. -/
structure Invocation where
  kind : GKind
  path : String
  gen : Yaml
  cfg : List (String × Yaml)
deriving Repr

/-- `_DEFAULT_CONFIG` has an empty `extensions` mapping (lines 102-105). -/
def defaultExtensions : List (String × Yaml) := []

/-- Python `gen == 'generated'` on a raw extension spec. -/
def isGeneratedSpec : Yaml → Bool
  | .str s => s = "generated"
  | _ => false

/-- `GeneratorManifest._walk_group` (lines 216-247): validate the scope
configuration, merge it over the parent's, then classify each key in
manifest order, recursing into nested dictionaries and recording one
handler invocation per non-group unit, in manifest order.  (During
`__enter__` the group post-handler is `None`, so the walk records
exactly these events.)  Recursion is bounded by explicit fuel so that
the definition is structurally recursive; the manifest tree is finite
and any fuel at least its depth gives the Python behavior. -/
def walkGroup (fuel : Nat) (m : Yaml) (path : String)
    (parentCfg : List (String × Yaml)) : Except WalkErr (List Invocation) :=
  match fuel with
  | 0 => .error (.genErr "recursion limit exceeded")
  | fuel + 1 =>
    match m with
    | .dict entries => do
        let scopeConfig := (List.lookup "config" entries).getD (.dict [])
        let _ ← validateConfig scopeConfig
        let cfg ← mergeConfigs parentCfg scopeConfig
        entries.foldlM (fun acc kv => do
          let key := kv.1
          let value := kv.2
          let here ←
            if key = "" then
              Except.error (.genErr "unexpected empty key")
            else if key = "config" then
              Except.ok []
            else if keyRegexMatch key = false then
              Except.error (.genErr "invalid key")
            else if key = "testdata.yaml" then do
              let _ ← validateTestdataYaml value
              Except.ok [⟨.testdataYaml, joinPath path key, value, cfg⟩]
            else
              match value with
              | .dict es => walkGroup fuel (.dict es) (joinPath path key) cfg
              | v => do
                let _ ← validateGenerator v true
                let kind := if pyEndsWith key ".in" then GKind.testcase else GKind.testgroup
                Except.ok [⟨kind, joinPath path key, v, cfg⟩]
          pure (acc ++ here)) []
    | _ => .error (.genErr "manifest group is not a dictionary")

/-- `GeneratorManifest._walk` invoked from `__enter__` (lines 125-133,
249-250): the top level must be a dictionary, then the whole tree is
walked from the problem's data path with the default configuration. -/
def walkInvocations (fuel : Nat) (manifest : Yaml) (dataPath : String) :
    Except WalkErr (List Invocation) :=
  match manifest with
  | .dict _ => walkGroup fuel manifest dataPath defaultExtensions
  | _ => .error (.genErr "expected top-level dictionary")

/-- The duplicate-path pre-pass of `__enter__` (lines 128-133): the
handler records every resolved path in a set and raises on the first
path already present. -/
def findDuplicate (seen : List String) : List String → Option String
  | [] => none
  | p :: rest => if p ∈ seen then some p else findDuplicate (p :: seen) rest

/-- `GeneratorManifest.__enter__`: parse (assumed done), check the top
level, then run the duplicate-path pre-pass over the full walk.  Nothing
in this phase mutates the data tree; only on success is the invocation
list available to `run`. -/
def gendataEnter (fuel : Nat) (manifest : Yaml) (dataPath : String) :
    Except WalkErr (List Invocation) := do
  let invs ← walkInvocations fuel manifest dataPath
  match findDuplicate [] (invs.map (·.path)) with
  | some p => .error (.duplicatePath p)
  | none => .ok invs

/-! ## Filesystem effects of a run -/

/-- Mutations of the problem's data tree performed by a run, in order.
`runChain` stands for the execution of a generator chain in its private
staging area (no data-tree effect by itself). -/
inductive FsEvent where
  | ensureDir (path : String)
  | writeFile (path : String)
  | runChain (unitPath : String)
  | removePath (path : String)
  | moveTo (path : String)
deriving Repr, DecidableEq

/-- `fname.split('.')[-1]` of the merge loop (line 408). -/
def extOf (fname : String) : String := (pySplit fname '.').getLastD ""

/-- The adoption filter of `_run_single`'s merge loop (lines 405-417):
a produced file is moved into the data tree iff its name contains a dot,
its extension is `in` or is configured `"generated"`, and the name
obtained by replacing the extension's characters with `in`
(`fname[:-len(ext)] + 'in'`) is among the produced files. -/
def adoptFile (extensions : List (String × Yaml)) (files : List String)
    (fname : String) : Bool :=
  if ¬ pyContains fname '.' then false
  else
    let ext := extOf fname
    if ¬ (ext = "in" ∨ isGeneratedSpec ((List.lookup ext extensions).getD .null)) then false
    else
      let inFile := pySliceToNeg fname ext.length ++ "in"
      files.contains inFile

/-- Events of the merge loop for one directory produced by a group
generator (lines 400-422): each adopted file gets its target directory
ensured, any previous version removed, and the file moved in.  (Python
iterates a `set(files)`, whose order is unspecified; the adoption
decisions themselves are order-independent.) -/
def mergeMovesDir (targetDir : String) (extensions : List (String × Yaml))
    (root : String) (files : List String) : List FsEvent :=
  files.flatMap (fun fname =>
    if adoptFile extensions files fname then
      let curTargetDir := joinPath targetDir root
      let curTarget := joinPath curTargetDir fname
      [.ensureDir curTargetDir, .removePath curTarget, .moveTo curTarget]
    else [])

/-- `GeneratorManifest._run_single` (lines 377-425) as its sequence of
data-tree events.  `genOutput` abstracts what the external generator
chain left in the staging directory `gen`, as `(relative root, file
names)` pairs in `os.walk` order: the engine never inspects those files
beyond their names.  A `null` generator spec returns right after
ensuring the directory ("Manual case: input file(s) are already in the
data directory"). -/
def runSingleEvents (inv : Invocation)
    (genOutput : List (String × List String)) : List FsEvent :=
  let targetDir := if inv.kind = .testgroup then inv.path else dirname inv.path
  FsEvent.ensureDir targetDir ::
    match inv.kind, inv.gen with
    | .testdataYaml, _ => [.writeFile inv.path]
    | _, .null => []
    | _, _ =>
      FsEvent.runChain inv.path ::
        genOutput.flatMap (fun rf => mergeMovesDir targetDir inv.cfg rf.1 rf.2)

/-- `main`'s generation path: `__enter__` (including the duplicate-path
pre-pass) and then `run`.  `genOutput` gives each unit's staged
generator output, and `postEvents` stands for whatever the subsequent
`_run_post_group` filesystem scan would do; neither happens unless
loading succeeded.  Returns the data-tree events together with the fatal
error, if any. -/
def loadAndRun (fuel : Nat) (manifest : Yaml) (dataPath : String)
    (genOutput : String → List (String × List String))
    (postEvents : List FsEvent) : List FsEvent × Option WalkErr :=
  match gendataEnter fuel manifest dataPath with
  | .error e => ([], some e)
  | .ok invs =>
      (invs.flatMap (fun inv => runSingleEvents inv (genOutput inv.path)) ++ postEvents,
       none)

/-! ## Cleaning -/

/-- `GeneratorManifest._clean_single` (lines 430-457) as the list of
paths whose removal is attempted (each removal is best-effort and
skipped when the file does not exist).  For a testcase the `.in` path
and every `path[:-3].ext` for the scope's configured extensions are
removed regardless of the generator spec; for `testdata.yaml` files and
test groups removal happens only when the spec is not `None`.  `none`
models the `assert path.endswith('.in')` failing. -/
def cleanSingleTargets (kind : GKind) (path : String) (gen : Yaml)
    (extensions : List (String × Yaml)) : Option (List String) :=
  match kind with
  | .testcase =>
      if pyEndsWith path ".in" then
        some (path :: extensions.map (fun kv => pyDropRight path 3 ++ "." ++ kv.1))
      else none
  | .testdataYaml => some (match gen with | .null => [] | _ => [path])
  | .testgroup => some (match gen with | .null => [] | _ => [path])

/-! ## Extension generation -/

/-- The partition loop of `_generate_extensions` (lines 317-326):
`old_extensions` starts as `['in']` and collects the externally
generated extensions; a newly generated `ans` is *prepended* to
`new_extensions`, every other newly generated extension is appended. -/
def splitExtLists (old new : List String) :
    List (String × Yaml) → List String × List String
  | [] => (old, new)
  | (ext, gen) :: rest =>
    if isGeneratedSpec gen then splitExtLists (old ++ [ext]) new rest
    else if ext = "ans" then splitExtLists old ("ans" :: new) rest
    else splitExtLists old (new ++ [ext]) rest

/-- The `new_extensions` list of `_generate_extensions`, in the order in
which the per-extension generation loop (lines 348-352) runs. -/
def newExtensions (extensions : List (String × Yaml)) : List String :=
  (splitExtLists ["in"] [] extensions).2

/-- Which command spec the generation loop of `_generate_extensions`
actually executes for each newly generated extension (lines 348-352):
`self._execute_generator(gen, ...)` reads the *loop variable* `gen` left
over from the partition loop of lines 319-326, i.e. the spec of the last
entry of `config['extensions']`, not the spec configured for the
extension being generated.  Result: one `(extension, executed spec)`
pair per newly generated extension, in execution order.  (When the
extensions mapping is empty, `new_extensions` is empty and the function
returns before reaching the loop, so `gen` is never read.) -/
def extensionChainsRun (extensions : List (String × Yaml)) :
    List (String × Yaml) :=
  match extensions.getLast? with
  | none => []
  | some last => (newExtensions extensions).map (fun ext => (ext, last.2))

/-- Written from the spec's words, for comparison with
`extensionChainsRun`: each newly generated extension runs the command
chain mapped to *that* extension name in the scope's configuration. -/
def specExtensionChainsRun (extensions : List (String × Yaml)) :
    List (String × Yaml) :=
  (newExtensions extensions).map
    (fun ext => (ext, (List.lookup ext extensions).getD .null))

/-! ## The post-order filesystem scan -/

/-- The filesystem facts `_run_post_group` consults: a directory listing
(`os.listdir`, taking the absolute directory being scanned) and
file/directory tests on absolute paths.  `cwd` is the interpreter's
current working directory: `os.path.isdir(fname)` and
`os.path.isfile(fname)` resolve a *relative* name against it. -/
structure FsView where
  cwd : String
  listing : String → List String
  isFileAt : String → Bool
  isDirAt : String → Bool

/-- `GeneratorManifest._run_post_group` (lines 367-375) as the list of
`.in` paths for which `_generate_extensions` is invoked.  Note the
source tests `os.path.isdir(fname)` and `os.path.isfile(fname)` on the
bare entry name, which the OS resolves against the process working
directory, while the listing and the recursive/extension calls use
`os.path.join(path, fname)`.  Recursion is bounded by explicit fuel (the
directory tree is finite). -/
def runPostGroup (fs : FsView) : Nat → List String → String → List String
  | 0, _, _ => []
  | fuel + 1, manifestKeys, path =>
    (fs.listing path).flatMap (fun fname =>
      if fname ∈ manifestKeys then []
      else if fs.isDirAt (joinPath fs.cwd fname) then
        runPostGroup fs fuel [] (joinPath path fname)
      else if fs.isFileAt (joinPath fs.cwd fname) && pyEndsWith fname ".in" then
        [joinPath path fname]
      else [])

/-- Written from the spec's words, for comparison with `runPostGroup`:
the scan triggers extension generation for every `.in` file that exists
on disk *in the scanned directory* and is not an explicit manifest key
at that scope, recursing into subdirectories of the scanned directory. -/
def specRunPostGroup (fs : FsView) : Nat → List String → String → List String
  | 0, _, _ => []
  | fuel + 1, manifestKeys, path =>
    (fs.listing path).flatMap (fun fname =>
      if fname ∈ manifestKeys then []
      else if fs.isDirAt (joinPath path fname) then
        specRunPostGroup fs fuel [] (joinPath path fname)
      else if fs.isFileAt (joinPath path fname) && pyEndsWith fname ".in" then
        [joinPath path fname]
      else [])

/-! ## Command interpolation -/

/-- The substitution applied to each argument token by `_parse_command`
(lines 262-267): a token equal to `$PATH` becomes the unit path argument;
otherwise a token *starting with* `$SEED` is replaced in its entirety by
the seed; every other token is left unchanged. -/
def substituteArg (path seed : String) (arg : String) : String :=
  if arg = "$PATH" then path
  else if pyStartsWith arg "$SEED" then seed
  else arg

/-- `GeneratorManifest._parse_command` (lines 255-268): hash the literal
command text into the decimal seed, tokenize, resolve the program path
against the generator directory, and substitute the argument tokens.
`none` models the `IndexError` on an empty token list, which validation
has already excluded. -/
def parseCommand (genPath path command : String) :
    Option (String × List String) :=
  let seed := toString (hashCommand command)
  match shlexSplit command with
  | [] => none
  | prog :: args => some (joinPath genPath prog, args.map (substituteArg path seed))

/-- The `path` argument `_run_single` passes to `_execute_generator` and
hence to `_parse_command` (lines 396-397): `os.path.basename(path)`, the
unit's file (or group) name, extension included. -/
def runSinglePathArg (path : String) : String := basename path

/-- The `path` argument `_generate_extensions` passes for the generation
of extension `ext` of the testcase at `path` (lines 348-352):
`os.path.basename(cur_path)` where `cur_path = path[:-2] + ext`, i.e. the
extension file's own basename. -/
def extGenPathArg (path ext : String) : String :=
  basename (pyDropRight path 2 ++ ext)

/-- Written from the spec's words, for comparison with the path argument
the code passes: the unit's target path relative to the data directory,
with its extension removed. -/
def stripExtension (s : String) : String :=
  String.mk (joinCharList '.' (splitCharList '.' s.data).dropLast)

/-- Written from the spec's words (continued): `relative` part of the
spec's "target path (relative, extension-stripped)". -/
def relPathTo (base p : String) : String :=
  if pyStartsWith p (base ++ "/") then pyDrop p (base.length + 1) else p

/-- Written from the spec's words: the value the spec says `$PATH` is
replaced with, for a unit whose target is `targetPath` under the data
directory `dataPath`. -/
def specPathPlaceholderValue (dataPath targetPath : String) : String :=
  stripExtension (relPathTo dataPath targetPath)

/-- Written from the spec's words, for comparison with `adoptFile`: a
candidate is adopted only if its extension (the part after the last dot)
is `in` or configured `"generated"`, and a sibling file with the same
basename and `.in` extension exists among the produced files. -/
def specAdoptFile (extensions : List (String × Yaml)) (files : List String)
    (fname : String) : Bool :=
  if ¬ pyContains fname '.' then false
  else
    let parts := pySplit fname '.'
    let ext := parts.getLastD ""
    if ¬ (ext = "in" ∨ isGeneratedSpec ((List.lookup ext extensions).getD .null)) then false
    else
      let sibling := joinStrings '.' (parts.dropLast ++ ["in"])
      files.contains sibling

/-- The adoption filter as `adoptFile` actually computes it, phrased in
the spec's vocabulary (amended form): identical to `specAdoptFile`
except when the candidate's name ends in a dot — then the extension is
empty and the sibling looked up is the file literally named `in`, not
`basename.in`. -/
def specAdoptFileAmended (extensions : List (String × Yaml)) (files : List String)
    (fname : String) : Bool :=
  if ¬ pyContains fname '.' then false
  else
    let parts := pySplit fname '.'
    let ext := parts.getLastD ""
    if ¬ (ext = "in" ∨ isGeneratedSpec ((List.lookup ext extensions).getD .null)) then false
    else
      let sibling :=
        if ext.data.isEmpty then "in" else joinStrings '.' (parts.dropLast ++ ["in"])
      files.contains sibling

/-- The concrete filesystem situation of claim C3: the scanned data
directory `/data/g` contains exactly the regular file `1.in`, and the
interpreter's working directory `/work` contains nothing. -/
def postScanFsExample : FsView :=
  ⟨"/work",
   fun p => if p = "/data/g" then ["1.in"] else [],
   fun p => p == "/data/g/1.in",
   fun _ => false⟩

/-! ## Theorems -/
theorem splitCharList_ne_nil (sep : Char) (l : List Char) :
    splitCharList sep l ≠ [] := by
  cases l with
  | nil => simp [splitCharList]
  | cons c cs =>
    simp only [splitCharList]
    cases h : splitCharList sep cs with
    | nil => simp
    | cons p ps => by_cases hc : c = sep <;> simp [hc]

theorem joinCharList_splitCharList (sep : Char) (l : List Char) :
    joinCharList sep (splitCharList sep l) = l := by
  induction l with
  | nil => rfl
  | cons c cs ih =>
    simp only [splitCharList]
    cases h : splitCharList sep cs with
    | nil => exact absurd h (splitCharList_ne_nil sep cs)
    | cons p ps =>
      rw [h] at ih
      by_cases hc : c = sep
      · subst hc
        simp only [if_pos rfl, joinCharList]
        cases ps <;> simpa [joinCharList] using ih
      · simp only [if_neg hc, joinCharList]
        cases ps <;> simpa [joinCharList] using ih


/-- C1.  The claim says a `Testcase` with `null` generator spec is never
deleted by `clean` and never overwritten by `generate`.  The second half
holds: `_run_single` on a `null` spec only ensures the parent directory
and returns.  The first half is false in the code: `_clean_single`
removes a testcase's `.in` file and every configured extension file
without consulting the generator spec (the `gen is not None` guard
exists only in the `testdata.yaml` and test-group branches), so the
manual testcase `/data/sample/1.in` is unlinked by `clean`. -/
theorem c1_clean_unlinks_manual_testcase :
    cleanSingleTargets .testcase "/data/sample/1.in" .null [("ans", .str "sol")]
      = some ["/data/sample/1.in", "/data/sample/1.ans"] ∧
    "/data/sample/1.in" ∈ ["/data/sample/1.in", "/data/sample/1.ans"] ∧
    runSingleEvents ⟨.testcase, "/data/sample/1.in", .null, [("ans", .str "sol")]⟩ []
      = [.ensureDir "/data/sample"] :=
  ⟨rfl, by simp, rfl⟩

/-- C2.  The claim says each newly generated extension runs the command
chain configured for that extension.  In the code the generation loop of
`_generate_extensions` passes the stale loop variable `gen` — the spec of
the *last* entry of `config['extensions']` — to `_execute_generator`.
With extensions `{ans: "sol", viz: "generated"}` the newly generated
`ans` executes the literal string `generated` as its command chain
instead of `sol`; with `{ans: "sol", viz: "draw"}` both `ans` and `viz`
execute `draw`. -/
theorem c2_extension_runs_stale_loop_variable :
    extensionChainsRun [("ans", .str "sol"), ("viz", .str "generated")]
      = [("ans", .str "generated")] ∧
    specExtensionChainsRun [("ans", .str "sol"), ("viz", .str "generated")]
      = [("ans", .str "sol")] ∧
    extensionChainsRun [("ans", .str "sol"), ("viz", .str "draw")]
      = [("ans", .str "draw"), ("viz", .str "draw")] ∧
    specExtensionChainsRun [("ans", .str "sol"), ("viz", .str "draw")]
      = [("ans", .str "sol"), ("viz", .str "draw")] :=
  ⟨rfl, rfl, rfl, rfl⟩

/-- C3.  The claim says the post-order scan triggers extension
generation for every `.in` file on disk in the scanned directory that is
not a manifest key there.  The code lists the scanned directory but then
tests `os.path.isfile(fname)` on the bare name, which resolves against
the process working directory: with `/data/g` containing `1.in` (absent
from the manifest and from the working directory `/work`), the scan
triggers nothing, while the spec's reading triggers generation for
`/data/g/1.in`. -/
theorem c3_post_scan_tests_against_cwd :
    runPostGroup postScanFsExample 2 [] "/data/g" = [] ∧
    specRunPostGroup postScanFsExample 2 [] "/data/g" = ["/data/g/1.in"] ∧
    postScanFsExample.isFileAt "/data/g/1.in" = true ∧
    "1.in" ∈ postScanFsExample.listing "/data/g" :=
  ⟨rfl, rfl, rfl, by simp [postScanFsExample]⟩

/-- C7.  The seed is the SHA-512 digest of the literal command text
(UTF-8 encoded), interpreted as an integer and reduced modulo `2 ^ 31`,
hence a 31-bit non-negative integer; it is a pure function of the
template text, so identical command text always yields the same seed. -/
theorem c7_seed_is_sha512_mod_2_31 (command : String) :
    hashCommand command = sha512Nat (utf8Bytes command) % 2 ^ 31 ∧
    hashCommand command < 2 ^ 31 ∧
    (∀ other : String, other = command → hashCommand other = hashCommand command) :=
  ⟨rfl, Nat.mod_lt _ (by norm_num), fun _ h => by rw [h]⟩

/-- Witness for C7 at the command text of the spec's end-to-end example. -/
theorem c7_witness :
    hashCommand "gen 1 $SEED" < 2 ^ 31 ∧
    hashCommand "gen 1 $SEED" = hashCommand "gen 1 $SEED" :=
  ⟨(c7_seed_is_sha512_mod_2_31 "gen 1 $SEED").2.1,
   (c7_seed_is_sha512_mod_2_31 "gen 1 $SEED").2.2 "gen 1 $SEED" rfl⟩

/-- C10.  A child scope whose config maps extension `foo` to `null`
while the merged parent config has no `foo` entry passes
`_validate_config` (a `null` spec is explicitly allowed there), but
`_merge_configs` then executes `del config['extensions']['foo']`
unconditionally, raising an uncaught Python `KeyError` — not the
`GeneratorError` that every documented fatal error goes through.  The
whole walk of such a manifest dies with that `KeyError`. -/
theorem c10_falsy_extension_merge_keyerror :
    validateConfig (.dict [("extensions", .dict [("foo", .null)])]) = .ok () ∧
    mergeConfigs defaultExtensions (.dict [("extensions", .dict [("foo", .null)])])
      = .error .pyKeyError ∧
    walkInvocations 8
      (.dict [("config", .dict [("extensions", .dict [("foo", .null)])]),
              ("a.in", .str "gen 1")]) "/data"
      = .error .pyKeyError :=
  ⟨rfl, rfl, rfl⟩

/-- Helper: what `_parse_command` does to the argument at index `i`:
the token is passed through `substituteArg` with the unit path argument
and the decimal seed of the literal command text. -/
theorem parseCommand_args (genPath pathArg command prog : String)
    (args : List String)
    (hp : parseCommand genPath pathArg command = some (prog, args))
    (i : Nat) (tok : String)
    (ht : (shlexSplit command).tail[i]? = some tok) :
    args[i]? = some (substituteArg pathArg (toString (hashCommand command)) tok) := by
  unfold parseCommand at hp
  cases hs : shlexSplit command with
  | nil => rw [hs] at hp; simp at hp
  | cons p0 rest =>
    rw [hs] at hp
    simp only [Option.some.injEq, Prod.mk.injEq] at hp
    rw [hs] at ht
    simp only [List.tail_cons] at ht
    rw [← hp.2]
    simp [List.getElem?_map, ht]

/-- C8.  During interpolation, an argument token that starts with the
seed placeholder `$SEED` is replaced in its entirety by the decimal seed
string (trailing characters of the token are discarded), and an argument
token that is not `$PATH` and does not start with `$SEED` is passed
through unchanged. -/
theorem c8_seed_token_substitution (genPath path command prog : String)
    (args : List String)
    (hp : parseCommand genPath path command = some (prog, args))
    (i : Nat) (tok : String)
    (ht : (shlexSplit command).tail[i]? = some tok) :
    (pyStartsWith tok "$SEED" = true →
        args[i]? = some (toString (hashCommand command))) ∧
    (tok ≠ "$PATH" → pyStartsWith tok "$SEED" = false →
        args[i]? = some tok) := by
  have h := parseCommand_args genPath path command prog args hp i tok ht
  constructor
  · intro hseed
    rw [h]
    unfold substituteArg
    by_cases hpath : tok = "$PATH"
    · subst hpath; exact absurd hseed (by decide)
    · simp [hpath, hseed]
  · intro hne hseed
    rw [h]
    simp [substituteArg, hne, hseed]

/-- Witness for C8: in `gen $SEEDxyz plain`, the token `$SEEDxyz`
becomes the decimal seed of the whole literal command and the token
`plain` is untouched. -/
theorem c8_witness :
    [toString (hashCommand "gen $SEEDxyz plain"), "plain"][0]?
      = some (toString (hashCommand "gen $SEEDxyz plain")) ∧
    [toString (hashCommand "gen $SEEDxyz plain"), "plain"][1]? = some "plain" := by
  have hp : parseCommand "/g" "p" "gen $SEEDxyz plain"
      = some ("/g/gen", [toString (hashCommand "gen $SEEDxyz plain"), "plain"]) := rfl
  refine ⟨?_, ?_⟩
  · exact (c8_seed_token_substitution "/g" "p" "gen $SEEDxyz plain" "/g/gen" _ hp
      0 "$SEEDxyz" rfl).1 (by decide)
  · exact (c8_seed_token_substitution "/g" "p" "gen $SEEDxyz plain" "/g/gen" _ hp
      1 "plain" rfl).2 (by decide) (by decide)

/-- C9 counterexample.  The claim says `$PATH` is replaced by the unit's
target path in relative, extension-stripped form.  For the testcase at
`/prob/data/sample/1.in`, `_run_single` passes `os.path.basename(path)`,
so `$PATH` becomes `1.in` — the bare file name with its extension — while
the spec's value would be `sample/1`. -/
theorem c9_counterexample :
    parseCommand "/prob/generators" (runSinglePathArg "/prob/data/sample/1.in")
        "gen $PATH"
      = some ("/prob/generators/gen", ["1.in"]) ∧
    specPathPlaceholderValue "/prob/data" "/prob/data/sample/1.in" = "sample/1" ∧
    ("1.in" : String) ≠ "sample/1" :=
  ⟨rfl, rfl, by decide⟩

/-- C9 amended.  `$PATH` is replaced by the basename of the unit's
target artifact, extension included: primary generation passes the
testcase file's basename, and extension generation passes the extension
file's basename (`basename(path[:-2] + ext)`). -/
theorem c9_amended_path_token_is_basename
    (genPath tcPath ext command prog1 prog2 : String)
    (args1 args2 : List String) (i j : Nat) :
    (parseCommand genPath (runSinglePathArg tcPath) command = some (prog1, args1) →
      (shlexSplit command).tail[i]? = some "$PATH" →
      args1[i]? = some (basename tcPath)) ∧
    (parseCommand genPath (extGenPathArg tcPath ext) command = some (prog2, args2) →
      (shlexSplit command).tail[j]? = some "$PATH" →
      args2[j]? = some (basename (pyDropRight tcPath 2 ++ ext))) := by
  constructor
  · intro hp ht
    rw [parseCommand_args _ _ _ _ _ hp i "$PATH" ht]
    rfl
  · intro hp ht
    rw [parseCommand_args _ _ _ _ _ hp j "$PATH" ht]
    rfl

/-- Witness for C9 (amended): concrete substitutions for the testcase
`/prob/data/sample/1.in` and its `ans` extension. -/
theorem c9_amended_witness :
    (["1.in"] : List String)[0]? = some (basename "/prob/data/sample/1.in") ∧
    (["1.ans"] : List String)[0]?
      = some (basename (pyDropRight "/prob/data/sample/1.in" 2 ++ "ans")) := by
  have h := c9_amended_path_token_is_basename "/g" "/prob/data/sample/1.in" "ans"
    "gen $PATH" "/g/gen" "/g/gen" ["1.in"] ["1.ans"] 0 0
  exact ⟨h.1 rfl rfl, h.2 rfl rfl⟩

/-- Helper: a successful duplicate pre-pass means the scanned list has
no duplicates and avoids everything already seen. -/
theorem findDuplicate_eq_none (l : List String) :
    ∀ seen, findDuplicate seen l = none → l.Nodup ∧ ∀ x ∈ l, x ∉ seen := by
  induction l with
  | nil => intro seen _; exact ⟨List.nodup_nil, by simp⟩
  | cons p rest ih =>
    intro seen h
    by_cases hp : p ∈ seen
    · simp [findDuplicate, hp] at h
    · simp only [findDuplicate, if_neg hp] at h
      obtain ⟨hnd, hall⟩ := ih (p :: seen) h
      refine ⟨List.nodup_cons.mpr ⟨fun hmem => hall p hmem (List.mem_cons_self p seen), hnd⟩, ?_⟩
      intro x hx
      rcases List.mem_cons.mp hx with rfl | hx2
      · exact hp
      · exact fun hxs => hall x hx2 (List.mem_cons_of_mem p hxs)

/-- Helper: two equal elements at distinct positions refute `Nodup`. -/
theorem not_nodup_of_get_eq (l : List String) (i j : Nat)
    (hi : i < l.length) (hj : j < l.length) (hne : i ≠ j)
    (heq : l.get ⟨i, hi⟩ = l.get ⟨j, hj⟩) : ¬ l.Nodup := by
  intro hnd
  have := List.nodup_iff_injective_get.mp hnd heq
  exact hne (congrArg Fin.val this)

/-- C5.  When two distinct manifest entries resolve to the same target
filesystem path, the duplicate pre-pass of `__enter__` fails the load
with the duplicate-path error, before `run` starts: the run produces no
data-tree event at all, whatever the generators would output and
whatever the post-order scan would do. -/
theorem c5_duplicate_path_fails_before_generation
    (fuel : Nat) (manifest : Yaml) (dataPath : String)
    (genOutput : String → List (String × List String)) (postEvents : List FsEvent)
    (invs : List Invocation) (i j : Nat)
    (hw : walkInvocations fuel manifest dataPath = .ok invs)
    (hi : i < invs.length) (hj : j < invs.length) (hne : i ≠ j)
    (heq : (invs.get ⟨i, hi⟩).path = (invs.get ⟨j, hj⟩).path) :
    ∃ p, loadAndRun fuel manifest dataPath genOutput postEvents
      = ([], some (.duplicatePath p)) := by
  cases hfd : findDuplicate [] (invs.map (fun inv => inv.path)) with
  | none =>
    exfalso
    have hnd := (findDuplicate_eq_none _ [] hfd).1
    have hi2 : i < (invs.map (fun inv => inv.path)).length := by
      rw [List.length_map]; exact hi
    have hj2 : j < (invs.map (fun inv => inv.path)).length := by
      rw [List.length_map]; exact hj
    refine not_nodup_of_get_eq _ i j hi2 hj2 hne ?_ hnd
    simp only [List.get_eq_getElem, List.getElem_map]
    simpa using heq
  | some p =>
    refine ⟨p, ?_⟩
    unfold loadAndRun gendataEnter
    rw [hw]
    simp only [Bind.bind, Except.bind]
    rw [hfd]

/-- Witness for C5: a manifest with two entries for `a.in`; loading
fails with the duplicate-path error and no event is emitted. -/
theorem c5_witness :
    ∃ p, loadAndRun 4 (.dict [("a.in", .null), ("a.in", .null)]) "/data"
        (fun _ => []) [] = ([], some (.duplicatePath p)) := by
  have hw : walkInvocations 4 (.dict [("a.in", .null), ("a.in", .null)]) "/data"
      = .ok [⟨.testcase, "/data/a.in", .null, []⟩,
             ⟨.testcase, "/data/a.in", .null, []⟩] := rfl
  exact c5_duplicate_path_fails_before_generation 4 _ "/data" _ _ _ 0 1 hw
    (by simp) (by simp) (by decide) rfl

/-- Helper: once `ans` heads the `new_extensions` accumulator, it stays
at the head through the rest of the partition loop. -/
theorem splitExtLists_head_stays (rest : List (String × Yaml)) :
    ∀ old new : List String, new.head? = some "ans" →
      ((splitExtLists old new rest).2).head? = some "ans" := by
  induction rest with
  | nil => intro old new h; simpa [splitExtLists] using h
  | cons kv rest ih =>
    intro old new h
    obtain ⟨ext, gen⟩ := kv
    simp only [splitExtLists]
    by_cases hg : isGeneratedSpec gen
    · simp only [if_pos hg]; exact ih _ _ h
    · by_cases he : ext = "ans"
      · simp only [if_neg hg, if_pos he]; exact ih _ _ rfl
      · simp only [if_neg hg, if_neg he]
        apply ih
        cases new with
        | nil => simp at h
        | cons a t => simpa using h

/-- Helper: if some entry makes `ans` newly generated, the final
`new_extensions` list starts with `ans`. -/
theorem splitExtLists_head_of_mem (rest : List (String × Yaml)) :
    ∀ (old new : List String) (g : Yaml), ("ans", g) ∈ rest →
      isGeneratedSpec g = false →
      ((splitExtLists old new rest).2).head? = some "ans" := by
  induction rest with
  | nil => intro _ _ _ h _; cases h
  | cons kv rest ih =>
    intro old new g hmem hg
    obtain ⟨ext, gen⟩ := kv
    simp only [splitExtLists]
    by_cases hg2 : isGeneratedSpec gen
    · simp only [if_pos hg2]
      rcases List.mem_cons.mp hmem with heq | htail
      · exfalso
        have : g = gen := congrArg Prod.snd heq
        rw [this] at hg
        rw [hg] at hg2
        cases hg2
      · exact ih _ _ g htail hg
    · by_cases he : ext = "ans"
      · simp only [if_neg hg2, if_pos he]
        exact splitExtLists_head_stays _ _ _ rfl
      · simp only [if_neg hg2, if_neg he]
        rcases List.mem_cons.mp hmem with heq | htail
        · exact absurd (congrArg Prod.fst heq).symm he
        · exact ih _ _ g htail hg

/-- C6.  If the scope's configuration newly generates `ans` (an `ans`
entry whose spec is not `"generated"`), then `ans` is first in the
order of newly generated extensions, so its generation runs before that
of every other newly generated extension of the scope. -/
theorem c6_ans_generated_first (extensions : List (String × Yaml)) (g : Yaml)
    (hmem : ("ans", g) ∈ extensions) (hg : isGeneratedSpec g = false) :
    (newExtensions extensions).head? = some "ans" ∧
    ∀ e ∈ newExtensions extensions, e ≠ "ans" →
      (newExtensions extensions).indexOf "ans" < (newExtensions extensions).indexOf e := by
  have hh : (newExtensions extensions).head? = some "ans" :=
    splitExtLists_head_of_mem extensions ["in"] [] g hmem hg
  refine ⟨hh, ?_⟩
  intro e he hne
  cases hl : newExtensions extensions with
  | nil => rw [hl] at hh; cases hh
  | cons a t =>
    rw [hl] at hh
    have ha : a = "ans" := by simpa using hh
    subst ha
    rw [hl] at he
    simp only [List.indexOf_cons]
    have h1 : ("ans" == "ans") = true := by decide
    have h2 : ("ans" == e) = false := by
      simp only [beq_eq_false_iff_ne]
      exact fun h => hne h.symm
    simp [h1, h2]

/-- Witness for C6: with `{viz: "draw", ans: "sol"}`, the newly
generated list begins with `ans` even though `viz` is declared first. -/
theorem c6_witness :
    (newExtensions [("viz", .str "draw"), ("ans", .str "sol")]).head? = some "ans" :=
  (c6_ans_generated_first [("viz", .str "draw"), ("ans", .str "sol")] (.str "sol")
    (List.mem_cons_of_mem _ (List.mem_cons_self _ _)) rfl).1

/-- Appending two built strings concatenates their characters. -/
theorem stringMk_append (a b : List Char) :
    String.mk a ++ String.mk b = String.mk (a ++ b) := rfl

/-- Joining after appending a last piece. -/
theorem joinCharList_concat (sep : Char) (xs : List (List Char)) (y : List Char)
    (h : xs ≠ []) :
    joinCharList sep (xs ++ [y]) = joinCharList sep xs ++ sep :: y := by
  induction xs with
  | nil => exact absurd rfl h
  | cons p ps ih =>
    cases ps with
    | nil => rfl
    | cons q qs =>
      have h1 : joinCharList sep ((p :: q :: qs) ++ [y])
          = p ++ sep :: joinCharList sep ((q :: qs) ++ [y]) := rfl
      have h2 : joinCharList sep (p :: q :: qs)
          = p ++ sep :: joinCharList sep (q :: qs) := rfl
      rw [h1, ih (by simp), h2]
      simp

/-- A string containing the separator splits into at least two pieces. -/
theorem splitCharList_two_le (sep : Char) (l : List Char)
    (h : l.contains sep = true) : 2 ≤ (splitCharList sep l).length := by
  induction l with
  | nil => simp at h
  | cons c cs ih =>
    simp only [List.contains_cons, Bool.or_eq_true, beq_iff_eq] at h
    simp only [splitCharList]
    cases hs : splitCharList sep cs with
    | nil => exact absurd hs (splitCharList_ne_nil sep cs)
    | cons p ps =>
      by_cases hc : c = sep
      · simp only [if_pos hc, List.length_cons]
        omega
      · simp only [if_neg hc, List.length_cons]
        rcases h with h | h
        · exact absurd h.symm hc
        · have h2 := ih h
          rw [hs] at h2
          simp only [List.length_cons] at h2
          omega

/-- The sibling name `_run_single` actually checks,
`fname[:-len(ext)] + 'in'`, equals `basename.in` (the dot-joined pieces
with the extension replaced by `in`) whenever the extension is
non-empty; when the file name ends in a dot the extension is empty, the
Python slice `[:-0]` evaluates to the empty string, and the checked
name degenerates to the bare string `in`. -/
theorem slice_sibling_eq (fname : String) (h : pyContains fname '.' = true) :
    pySliceToNeg fname ((pySplit fname '.').getLastD "").length ++ "in"
      = if ((pySplit fname '.').getLastD "").data.isEmpty then ("in" : String)
        else joinStrings '.' ((pySplit fname '.').dropLast ++ ["in"]) := by
  obtain ⟨l⟩ := fname
  obtain ⟨qs, e, hqe⟩ : ∃ qs e, splitCharList '.' l = qs ++ [e] := by
    rcases List.eq_nil_or_concat (splitCharList '.' l) with hnil | ⟨qs, e, hqe⟩
    · exact absurd hnil (splitCharList_ne_nil '.' l)
    · rw [List.concat_eq_append] at hqe
      exact ⟨qs, e, hqe⟩
  have h2 : 2 ≤ (splitCharList '.' l).length := splitCharList_two_le '.' l h
  have hq : qs ≠ [] := by
    rw [hqe] at h2
    intro hq0
    subst hq0
    simp at h2
  have hsplit : pySplit (String.mk l) '.' = qs.map String.mk ++ [String.mk e] := by
    simp [pySplit, hqe]
  have hlast : (pySplit (String.mk l) '.').getLastD "" = String.mk e := by
    rw [hsplit]
    simp
  have hdrop : (pySplit (String.mk l) '.').dropLast = qs.map String.mk := by
    rw [hsplit]
    simp
  rw [hlast, hdrop]
  by_cases he : e = []
  · subst he
    rfl
  · have hlfact : l = joinCharList '.' qs ++ '.' :: e := by
      conv_lhs => rw [← joinCharList_splitCharList '.' l]
      rw [hqe, joinCharList_concat '.' qs e hq]
    have hlen0 : (String.mk e).length ≠ 0 := by
      simpa [String.length] using he
    have htake : l.take (l.length - e.length) = joinCharList '.' qs ++ ['.'] := by
      rw [hlfact]
      have hlen2 : (joinCharList '.' qs ++ '.' :: e).length - e.length
          = (joinCharList '.' qs).length + 1 := by
        simp only [List.length_append, List.length_cons]
        omega
      rw [hlen2, List.take_append_eq_append_take]
      have h3 : (joinCharList '.' qs).length + 1 - (joinCharList '.' qs).length = 1 := by
        omega
      rw [h3, List.take_of_length_le (by omega)]
      rfl
    have hslice : pySliceToNeg (String.mk l) (String.mk e).length
        = String.mk (joinCharList '.' qs ++ ['.']) := by
      unfold pySliceToNeg
      rw [if_neg hlen0]
      have hd : (String.mk l).data = l := rfl
      rw [hd]
      have hl : (String.mk e).length = e.length := rfl
      rw [hl, htake]
    have hrhs : joinStrings '.' (qs.map String.mk ++ ["in"])
        = String.mk (joinCharList '.' qs ++ '.' :: ['i', 'n']) := by
      unfold joinStrings
      have hmap : (qs.map String.mk ++ ["in"]).map String.data
          = qs ++ [['i', 'n']] := by
        rw [List.map_append, List.map_map]
        have hcomp : String.data ∘ String.mk = id := rfl
        rw [hcomp, List.map_id]
        rfl
      rw [hmap, joinCharList_concat '.' qs ['i', 'n'] hq]
    have hemp : (String.mk e).data.isEmpty = false := by
      cases e with
      | nil => exact absurd rfl he
      | cons a t => rfl
    rw [hemp]
    simp only [Bool.false_eq_true, if_false]
    rw [hslice, hrhs]
    have hin : ("in" : String) = String.mk ['i', 'n'] := rfl
    rw [hin, stringMk_append]
    congr 1
    simp

/-- C4 counterexample.  The claim's adoption condition — extension `in`
or configured `"generated"` plus a sibling with the same basename and
`.in` extension — disagrees with the code on a produced file whose name
ends in a dot: with the (validated) configuration `{"": "generated"}`
and produced files `{a., in}`, the code adopts `a.` because
`fname[:-len('')] + 'in'` is the literal name `in`, which is present,
while the basename sibling `a.in` demanded by the claim is absent. -/
theorem c4_counterexample :
    adoptFile [("", .str "generated")] ["a.", "in"] "a." = true ∧
    specAdoptFile [("", .str "generated")] ["a.", "in"] "a." = false ∧
    validateConfig (.dict [("extensions", .dict [("", .str "generated")])]) = .ok () :=
  ⟨rfl, rfl, rfl⟩

/-- C4 amended.  The merge filter adopts a produced file iff its name
contains a dot, its extension (the part after the last dot) is `in` or
is configured `"generated"`, and the produced set contains the file
whose name is the dot-joined pieces with the extension replaced by `in`
(equal to `basename.in` for a non-empty extension, and to the bare name
`in` when the candidate's name ends in a dot).  On the spec's example
set `{1.in, 1.ans, 2.in, stray.txt}` with `ans` configured
`"generated"`, exactly `1.in`, `1.ans` and `2.in` are adopted. -/
theorem c4_amended_adoption_filter (extensions : List (String × Yaml))
    (files : List String) (fname : String) :
    adoptFile extensions files fname = specAdoptFileAmended extensions files fname ∧
    ["1.in", "1.ans", "2.in", "stray.txt"].filter
        (adoptFile [("ans", .str "generated")] ["1.in", "1.ans", "2.in", "stray.txt"])
      = ["1.in", "1.ans", "2.in"] := by
  constructor
  · by_cases h : pyContains fname '.' = true
    · simp only [adoptFile, specAdoptFileAmended, extOf, h, not_true_eq_false,
        if_false, Bool.false_eq_true]
      rw [slice_sibling_eq fname h]
    · simp [adoptFile, specAdoptFileAmended, h]
  · rfl
